import Mathlib

set_option autoImplicit false

/-!
Verification development for the rellx state-management library.

Part 1 embeds the shared value model and the base store
(`src/rellx-core/src/core`: `StoreCore` and `deepEqual` from `utils.ts`).
Part 2 embeds the middleware store (`src/rellx-core/src/full/full.ts`).
Part 3 embeds the reactive wrapping engine (`ReactiveStore`) over an
explicit heap with object identity, proxy cache and notification log.
-/

/-- Property keys of the embedded JS fragment. JS keys are strings; `idx n`
stands for the canonical decimal numeric-index strings (exactly those the
source's `isNumericIndex` test accepts, in canonical form), `key s` for all
other string keys. -/
inductive JProp where
  | key (s : String)
  | idx (n : Nat)
  deriving DecidableEq, Repr

/-- Structural (heap-free) JS values: primitives, keyed records and ordered
sequences, as compared by the library's `deepEqual`. Records keep insertion
order; JS objects have no duplicate keys, so field lists are assumed
duplicate-free where it matters. -/
inductive Value where
  | vnull
  | vundefined
  | int (n : Int)
  | str (s : String)
  | bool (b : Bool)
  | obj (fields : List (JProp × Value))
  | arr (elems : List Value)

/-- Field access `b[key]` on a record's field list; an absent key reads as
`undefined`. -/
def lookupField (fields : List (JProp × Value)) (k : JProp) : Value :=
  match fields.find? (fun q => q.1 == k) with
  | some q => q.2
  | none => .vundefined

mutual
/-- `deepEqual(a, b)` from `src/rellx-core/src/core/utils.ts`:
reference/primitive equality fast path, null/undefined check, non-objects
unequal, `Array.isArray` kind check, then key-set cardinality plus key
membership and per-key recursion for records, index-wise recursion for
arrays (`Object.keys` of an array being its index strings). The `a === b`
fast path only short-circuits cases the structural recursion also accepts,
so it is subsumed by the structural cases below. -/
def deepEqual : Value → Value → Bool
  | .vnull, .vnull => true
  | .vundefined, .vundefined => true
  | .int m, .int n => m == n
  | .str s, .str t => s == t
  | .bool x, .bool y => x == y
  | .obj fa, .obj fb => (fa.length == fb.length) && deepEqualFields fa fb
  | .arr xs, .arr ys => (xs.length == ys.length) && deepEqualElems xs ys
  | _, _ => false

/-- The per-key loop of `deepEqual` over the first record's fields: each key
must be a member of the second record's key set and map to a deep-equal
value there. -/
def deepEqualFields : List (JProp × Value) → List (JProp × Value) → Bool
  | [], _ => true
  | (k, v) :: rest, fb =>
      (fb.any fun q => q.1 == k) && deepEqual v (lookupField fb k) &&
        deepEqualFields rest fb

/-- The index-wise loop of `deepEqual` over two arrays of equal length. -/
def deepEqualElems : List Value → List Value → Bool
  | [], [] => true
  | _ :: _, [] => false
  | [], _ :: _ => false
  | x :: xs, y :: ys => deepEqual x y && deepEqualElems xs ys
end

/-- JS truthiness of the null/undefined test `newState == null`. -/
def Value.isNullish : Value → Bool
  | .vnull => true
  | .vundefined => true
  | _ => false

/-- Whether the value is JS `null`. -/
def Value.isNull : Value → Bool
  | .vnull => true
  | _ => false

/-- The JS test `typeof x === 'object'` (true for null, records and arrays). -/
def jsTypeofObject : Value → Bool
  | .vnull => true
  | .obj _ => true
  | .arr _ => true
  | _ => false

/-- JS strict equality `===` on the values that can reach the non-object
branch of the store's change test (primitives, null and undefined compare by
value; for two containers `===` is reference equality, but that branch is
taken only when the new state is not a non-null object, so those cases are
never consulted). -/
def strictEqPrim : Value → Value → Bool
  | .vnull, .vnull => true
  | .vundefined, .vundefined => true
  | .int m, .int n => m == n
  | .str s, .str t => s == t
  | .bool x, .bool y => x == y
  | _, _ => false

/-- A subscribed callback, identified by `lid`; `throws` records whether the
callback raises when invoked (the callback bodies themselves are abstracted
to their observable effect on the event log). -/
structure Listener where
  lid : Nat
  throws : Bool
  deriving DecidableEq, Repr

/-- A store plugin (hook). `beforeUpdate` models `onBeforeUpdate`: `none`
stands for a `void`/`undefined` return (no replacement), `some v` for a
returned replacement value. The remaining hooks are observed through the
event log. -/
structure Plugin where
  pid : Nat
  beforeUpdate : Value → Value → Option Value

/-- Observable events of a store operation, in emission order. -/
inductive Event where
  | listenerCalled (lid : Nat) (v : Value)
  | listenerErrorLogged (lid : Nat)
  | beforeUpdate (pid : Nat)
  | afterUpdate (pid : Nat) (newV oldV : Value)
  | destroyed (pid : Nat)

/-- The base store `StoreCore` of `src/rellx-core/src/core` (the variant
with validation, deep-equality change detection and per-listener error
isolation, source `src/unnamed/part_018`). -/
structure StoreCore where
  state : Value
  listeners : List Listener
  plugins : List Plugin

/-- Errors surfaced synchronously by `setState`. -/
inductive StoreError where
  | invalidState
  deriving DecidableEq, Repr

/-- The `onBeforeUpdate` loop of `StoreCore.setState`: each plugin in
registration order sees the current candidate state and may replace it
(a non-undefined return becomes the candidate for the next plugin and the
final write). -/
def StoreCore.applyBefore : List Plugin → Value → Value → Value × List Event
  | [], n0, _ => (n0, [])
  | p :: rest, n0, old =>
      let v := match p.beforeUpdate n0 old with
               | some x => x
               | none => n0
      let r := StoreCore.applyBefore rest v old
      (r.1, Event.beforeUpdate p.pid :: r.2)

/-- The notification loop of `StoreCore.setState`: every listener is invoked
with the new value; a listener that throws has its exception caught and
logged, never aborting the remaining listeners. -/
def StoreCore.notifyAll (listeners : List Listener) (v : Value) : List Event :=
  (listeners.map fun l =>
    Event.listenerCalled l.lid v ::
      (if l.throws then [Event.listenerErrorLogged l.lid] else [])).flatten

/-- The change test of `StoreCore.setState`: deep comparison for non-null
object-typed new states, strict (reference) inequality otherwise. -/
def StoreCore.hasChangedB (newState oldState : Value) : Bool :=
  if jsTypeofObject newState && !newState.isNull then
    !(deepEqual newState oldState)
  else
    !(strictEqPrim newState oldState)

/-- `StoreCore.setState`: computes the updater's result, throws
`invalidState` on null/undefined (leaving everything untouched), runs the
`onBeforeUpdate` chain, and commits (stores the value, notifies every
listener with per-listener error isolation, then fires `onAfterUpdate` on
every plugin) exactly when the change test holds. The returned store is the
store after the call; the error component models the exception surfaced to
the caller. -/
def StoreCore.setState (s : StoreCore) (updater : Value → Value) :
    StoreCore × List Event × Option StoreError :=
  let oldState := s.state
  let ns0 := updater oldState
  if ns0.isNullish then (s, [], some .invalidState)
  else
    let nb := StoreCore.applyBefore s.plugins ns0 oldState
    let newState := nb.1
    if StoreCore.hasChangedB newState oldState then
      ({ s with state := newState },
        nb.2 ++ StoreCore.notifyAll s.listeners newState
            ++ s.plugins.map (fun p => Event.afterUpdate p.pid newState oldState),
        none)
    else
      (s, nb.2, none)

/-- `StoreCore.destroy`: clears the listener set and fires every plugin's
`onDestroy`; the stored state is left untouched. -/
def StoreCore.destroy (s : StoreCore) : StoreCore × List Event :=
  ({ s with listeners := [] }, s.plugins.map fun p => Event.destroyed p.pid)

/-- A middleware stage of the extensible store
(`src/rellx-core/src/full/full.ts`). The source type is
`(store) => (next) => (updater) => void`: a stage acts on a logical
`setState` call and can only affect the store through the `next`
continuation it is given. The two expressible behaviours are modelled as
data: `rewrite f` calls `next` once with a (possibly) rewritten updater
(`rewrite id` is a pass-through), and `suppress` never calls `next`,
cancelling the update. -/
inductive Mw where
  | suppress
  | rewrite (f : (Value → Value) → (Value → Value))

/-- The type of the `next` continuation a middleware stage wraps: a logical
`setState` entry point (the store argument is threaded explicitly since the
embedding is pure). -/
abbrev NextFn := (Value → Value) → StoreCore → StoreCore × List Event × Option StoreError

/-- Interpretation of a middleware stage as a `NextFn` transformer, the
shape `mw(next)` has in the source's composition. -/
def Mw.interp : Mw → NextFn → NextFn
  | .suppress, _ => fun _ s => (s, [], none)
  | .rewrite f, next => fun u s => next (f u) s

/-- The extensible store `StoreFull`: a base store plus the registered
middleware list, in `use` order. -/
structure StoreFull where
  core : StoreCore
  middlewares : List Mw

/-- `StoreFull.setState`: with no middleware, delegates to
`StoreCore.setState`; otherwise composes the chain right-to-left around the
base `setState` (`chain.reduceRight((next, mw) => mw(next), base)`), so the
first registered middleware is outermost, and invokes the composition. -/
def StoreFull.setState (fs : StoreFull) (updater : Value → Value) :
    StoreCore × List Event × Option StoreError :=
  if fs.middlewares.isEmpty then StoreCore.setState fs.core updater
  else
    (fs.middlewares.foldr (fun mw next => mw.interp next)
      (fun u s => StoreCore.setState s u)) updater fs.core

/-- Heap addresses, giving the reactive model the object identity that the
proxy cache (`WeakMap`) of the source is keyed on. -/
abbrev Addr := Nat

/-- Values as stored in heap cells: primitives inline, objects and arrays by
reference. -/
inductive JVal where
  | vnull
  | vundefined
  | int (n : Int)
  | str (s : String)
  | bool (b : Bool)
  | ref (a : Addr)
  deriving DecidableEq, Repr

/-- A heap object: a keyed record or an ordered array, each carrying the
`extensible` flag that abstracts the host `Proxy` constructor's failure
condition for exotic/non-extensible targets (the source wraps `new Proxy` in
`try`/`catch`; the condition itself lives in the JS engine). -/
inductive HObj where
  | obj (fields : List (JProp × JVal)) (extensible : Bool)
  | arr (elems : List JVal) (extensible : Bool)
  deriving DecidableEq, Repr

/-- Whether the heap object is an array (the `Array.isArray(obj)` test the
traps close over). -/
def HObj.isArr : HObj → Bool
  | .obj _ _ => false
  | .arr _ _ => true

/-- Whether the host `Proxy` constructor succeeds on this object. -/
def HObj.isExtensible : HObj → Bool
  | .obj _ e => e
  | .arr _ e => e

/-- Raw (trap-free) property read on a heap object: field lookup for
records; element read, `length`, or `undefined` for arrays. Prototype
methods of arrays are not values here — their interception is modelled by
`ReactiveStore.callArrayMethod`. -/
def HObj.rawGet : HObj → JProp → JVal
  | .obj fs _, p =>
      (match fs.find? (fun q => q.1 == p) with
       | some q => q.2
       | none => .vundefined)
  | .arr es _, .idx n => es.getD n .vundefined
  | .arr es _, .key s => if s == "length" then .int es.length else .vundefined

/-- Update-or-append on a record's field list (JS assignment keeps the
position of an existing key and appends a new one). -/
def setAssoc (fs : List (JProp × JVal)) (k : JProp) (v : JVal) :
    List (JProp × JVal) :=
  if fs.any (fun q => q.1 == k) then
    fs.map (fun q => if q.1 == k then (k, v) else q)
  else fs ++ [(k, v)]

/-- Array element write; writing past the end pads with `undefined` (JS
holes read back as `undefined` in this model). -/
def listSetPad (es : List JVal) (n : Nat) (v : JVal) : List JVal :=
  if n < es.length then es.set n v
  else es ++ List.replicate (n - es.length) .vundefined ++ [v]

/-- Raw (trap-free) property write on a heap object. Setting `length` on an
array truncates or pads as in JS; non-index, non-`length` string properties
of arrays are outside the modelled fragment and are ignored. -/
def HObj.rawSet : HObj → JProp → JVal → HObj
  | .obj fs e, p, v => .obj (setAssoc fs p v) e
  | .arr es e, .idx n, v => .arr (listSetPad es n v) e
  | .arr es e, .key s, v =>
      if s == "length" then
        .arr (match v with
              | .int m =>
                  if m.toNat ≤ es.length then es.take m.toNat
                  else es ++ List.replicate (m.toNat - es.length) .vundefined
              | _ => es) e
      else .arr es e

/-- Observable events of the reactive engine: a listener invocation (the
`StoreCore.notifyListeners` loop calls every subscribed listener once per
shared notification) and a logged degradation warning. -/
inductive REvent where
  | listenerCalled (lid : Nat)
  | warn
  deriving DecidableEq, Repr

/-- Whether the event is a listener invocation. -/
def REvent.isCall : REvent → Bool
  | .listenerCalled _ => true
  | .warn => false

/-- Number of listener invocations recorded in a log. -/
def listenerCallCount (log : List REvent) : Nat :=
  (log.filter REvent.isCall).length

/-- The reactive store of `src/unnamed/part_017` (class `ReactiveStore`),
with the implicit JS heap made explicit: `heap` maps addresses to raw
objects, `proxyTarget` maps each live interception proxy to the original it
wraps, `proxyCache` is the `WeakMap` from originals to their canonical
proxy, `rootAddr` is the raw initial state object wrapped by
`createReactiveState`, `listeners` are the subscribed listener ids, `log`
the emitted events, and `fuel` a recursion bound for reading structural
values off the heap (any bound at least the heap depth is exact). -/
structure ReactiveStore where
  heap : List (Addr × HObj)
  proxyTarget : List (Addr × Addr)
  proxyCache : List (Addr × Addr)
  nextAddr : Addr
  rootAddr : Addr
  listeners : List Nat
  log : List REvent
  fuel : Nat

/-- Heap cell lookup. -/
def ReactiveStore.lookupObj (σ : ReactiveStore) (a : Addr) : Option HObj :=
  (σ.heap.find? (fun q => q.1 == a)).map (fun q => q.2)

/-- Heap cell overwrite (the address keeps its cell; absent addresses are
untouched). -/
def ReactiveStore.writeObj (σ : ReactiveStore) (a : Addr) (o : HObj) :
    ReactiveStore :=
  { σ with heap := σ.heap.map (fun q => if q.1 == a then (a, o) else q) }

/-- `StoreCore.notifyListeners`: the single shared notification, invoking
every subscribed listener once. -/
def ReactiveStore.notify (σ : ReactiveStore) : ReactiveStore :=
  { σ with log := σ.log ++ σ.listeners.map REvent.listenerCalled }

/-- A logged degradation warning (`console.error` in the `catch` blocks). -/
def ReactiveStore.warn (σ : ReactiveStore) : ReactiveStore :=
  { σ with log := σ.log ++ [REvent.warn] }

/-- `proxyCache.get(obj)`. -/
def ReactiveStore.cacheLookup (σ : ReactiveStore) (a : Addr) : Option Addr :=
  (σ.proxyCache.find? (fun q => q.1 == a)).map (fun q => q.2)

/-- The original object behind a proxy address; a non-proxy address is its
own target. Traps close over their target at proxy-creation time; this
recovers it from the proxy registry. -/
def ReactiveStore.resolveTarget (σ : ReactiveStore) (p : Addr) : Addr :=
  match σ.proxyTarget.find? (fun q => q.1 == p) with
  | some q => q.2
  | none => p

/-- The `value.__isReactive` test on a stored value: an interception proxy
answers `true` through its get trap; raw objects are assumed not to carry a
literal `__isReactive` field, and primitives are never wrapped. -/
def ReactiveStore.isReactiveJV (σ : ReactiveStore) (v : JVal) : Bool :=
  match v with
  | .ref a => (σ.proxyTarget.find? (fun q => q.1 == a)).isSome
  | _ => false

/-- `ReactiveStore.makeReactive` (`src/unnamed/part_017` lines 85-183):
cache hit returns the canonical existing proxy unchanged; otherwise a new
interception proxy is created, registered in the cache and returned; if the
host `Proxy` constructor fails the error is caught, a degradation warning
is logged and the unwrapped original object is returned. -/
def ReactiveStore.makeReactive (σ : ReactiveStore) (a : Addr) :
    Addr × ReactiveStore :=
  match σ.cacheLookup a with
  | some p => (p, σ)
  | none =>
    match σ.lookupObj a with
    | some o =>
      if o.isExtensible then
        (σ.nextAddr,
         { σ with
            nextAddr := σ.nextAddr + 1,
            proxyTarget := (σ.nextAddr, a) :: σ.proxyTarget,
            proxyCache := (a, σ.nextAddr) :: σ.proxyCache })
      else (a, σ.warn)
    | none => (a, σ)

/-- The wrap step shared by the set traps: an object-valued assigned value
that is not already reactive is wrapped via `makeReactive` first; primitives
pass through. -/
def ReactiveStore.wrapValue (σ : ReactiveStore) (v : JVal) :
    JVal × ReactiveStore :=
  match v with
  | .ref b =>
      if σ.isReactiveJV (.ref b) then (v, σ)
      else
        let w := σ.makeReactive b
        (.ref w.1, w.2)
  | _ => (v, σ)

/-- Structural read-back of a stored value as a heap-free `Value`,
dereferencing proxies to their targets (interception proxies are
structurally transparent: their get traps only perform idempotent wrapping,
which never changes the structural value and never notifies, so `deepEqual`
applied to proxies by the source is modelled as this pure read-back). -/
def ReactiveStore.readback (σ : ReactiveStore) : Nat → JVal → Value
  | _, .vnull => .vnull
  | _, .vundefined => .vundefined
  | _, .int n => .int n
  | _, .str s => .str s
  | _, .bool b => .bool b
  | 0, .ref _ => .vundefined
  | fuel+1, .ref a =>
      match σ.lookupObj (σ.resolveTarget a) with
      | some (.obj fs _) => .obj (fs.map fun q => (q.1, σ.readback fuel q.2))
      | some (.arr es _) => .arr (es.map fun v => σ.readback fuel v)
      | none => .vundefined

/-- `deepEqual` applied to two stored values (see
`ReactiveStore.readback`). -/
def ReactiveStore.heapDeepEqual (σ : ReactiveStore) (x y : JVal) : Bool :=
  deepEqual (σ.readback σ.fuel x) (σ.readback σ.fuel y)

/-- The source's numeric-index test
`typeof prop === 'string' && !isNaN(Number(prop)) && prop !== 'NaN'`,
on the canonical-form key model. -/
def isNumericIndex : JProp → Bool
  | .idx _ => true
  | .key _ => false

/-- The get trap of the root proxy (`createReactiveState`, lines 29-48):
an object-valued field not yet reactive is wrapped on demand, the proxy is
written back into the raw target so later reads return it directly, and the
proxy is returned; primitives and already-wrapped values pass through. The
`__isReactive`/`__store` marker properties are answered before reaching the
target and are not part of the key model. -/
def ReactiveStore.rootGet (σ : ReactiveStore) (prop : JProp) :
    JVal × ReactiveStore :=
  match σ.lookupObj σ.rootAddr with
  | none => (.vundefined, σ)
  | some o =>
    match o.rawGet prop with
    | .ref b =>
        if σ.isReactiveJV (.ref b) then (.ref b, σ)
        else
          let w := σ.makeReactive b
          (.ref w.1, w.2.writeObj σ.rootAddr (o.rawSet prop (.ref w.1)))
    | v => (v, σ)

/-- The set trap of the root proxy (`createReactiveState`, lines 50-65):
wrap an object-valued assigned value, store it, and fire the shared
notification exactly when the old and new values are not deep-equal. There
is no numeric-index special case at the root. -/
def ReactiveStore.rootSet (σ : ReactiveStore) (prop : JProp) (v : JVal) :
    ReactiveStore :=
  match σ.lookupObj σ.rootAddr with
  | none => σ
  | some o =>
    let oldValue := o.rawGet prop
    let w := σ.wrapValue v
    let σ₂ := w.2.writeObj σ.rootAddr (o.rawSet prop w.1)
    if σ₂.heapDeepEqual oldValue w.1 then σ₂ else σ₂.notify

/-- The get trap of a nested proxy created by `makeReactive` (lines
100-131), identical to the root get trap but addressed through the proxy's
target; array prototype methods are intercepted separately
(`ReactiveStore.callArrayMethod`). -/
def ReactiveStore.proxyGet (σ : ReactiveStore) (p : Addr) (prop : JProp) :
    JVal × ReactiveStore :=
  let a := σ.resolveTarget p
  match σ.lookupObj a with
  | none => (.vundefined, σ)
  | some o =>
    match o.rawGet prop with
    | .ref b =>
        if σ.isReactiveJV (.ref b) then (.ref b, σ)
        else
          let w := σ.makeReactive b
          (.ref w.1, w.2.writeObj a (o.rawSet prop (.ref w.1)))
    | v => (v, σ)

/-- The set trap of a nested proxy created by `makeReactive` (lines
133-161): wrap an object-valued assigned value, store it, then notify when
the target is an array and the key is a numeric index (always-observable
policy), or otherwise when the old and new values are not deep-equal. -/
def ReactiveStore.proxySet (σ : ReactiveStore) (p : Addr) (prop : JProp)
    (v : JVal) : ReactiveStore :=
  let a := σ.resolveTarget p
  match σ.lookupObj a with
  | none => σ
  | some o =>
    let oldValue := o.rawGet prop
    let w := σ.wrapValue v
    let σ₂ := w.2.writeObj a (o.rawSet prop w.1)
    let shouldNotify :=
      if o.isArr then
        isNumericIndex prop || !(σ₂.heapDeepEqual oldValue w.1)
      else !(σ₂.heapDeepEqual oldValue w.1)
    if shouldNotify then σ₂.notify else σ₂

/-- The seven mutating array methods the nested get trap intercepts. -/
inductive ArrMethod where
  | push (args : List JVal)
  | pop
  | shift
  | unshift (args : List JVal)
  | splice (start deleteCount : Nat) (items : List JVal)
  | sort
  | reverse

/-- Stand-in for JS `String(x)` as used by the default sort comparator;
host-object stringification is abbreviated, which only affects the element
order produced by `sort`, never the notification behaviour. -/
def jsToString : JVal → String
  | .vnull => "null"
  | .vundefined => "undefined"
  | .int n => toString n
  | .str s => s
  | .bool b => if b then "true" else "false"
  | .ref _ => "object"

/-- Ordered insertion for the model of the default array sort. -/
def insertByStr (x : JVal) : List JVal → List JVal
  | [] => [x]
  | y :: ys =>
      if jsToString x < jsToString y then x :: y :: ys
      else y :: insertByStr x ys

/-- Model of `Array.prototype.sort()` with the default (string) comparator:
a stable insertion sort by `jsToString`. -/
def sortJs (es : List JVal) : List JVal := es.foldr insertByStr []

/-- The raw effect of each intercepted method on the underlying element
list, as `originalMethod.apply(target, args)` has: it runs on the raw
target, so none of its internal element writes pass through any trap.
Method return values are not modelled. -/
def ArrMethod.rawApply : ArrMethod → List JVal → List JVal
  | .push args, es => es ++ args
  | .pop, es => es.dropLast
  | .shift, es => es.tail
  | .unshift args, es => args ++ es
  | .splice start deleteCount items, es =>
      es.take start ++ items ++ es.drop (start + deleteCount)
  | .sort, es => sortJs es
  | .reverse, es => es.reverse

/-- The array-method interception of the nested get trap (lines 103-114):
reading one of the seven method names on an array proxy returns a wrapper
that applies the original method to the raw target and then fires the
shared notification exactly once; this models invoking that wrapper. -/
def ReactiveStore.callArrayMethod (σ : ReactiveStore) (p : Addr)
    (m : ArrMethod) : ReactiveStore :=
  let a := σ.resolveTarget p
  match σ.lookupObj a with
  | some (.arr es e) => ((σ.writeObj a (.arr (m.rawApply es) e)).notify)
  | _ => σ

/-- `Array.prototype.push` invoked with the root proxy as receiver (the
root get trap does not intercept array methods, so when the root state is
itself an array, `reactive.push(...)` runs the host algorithm whose `Get`
and `Set` steps go through the root traps): read `length`, set each new
element at its index through the root set trap, then set `length` through
the root set trap. -/
def ReactiveStore.rootArrayPush (σ : ReactiveStore) (args : List JVal) :
    ReactiveStore :=
  let g := σ.rootGet (.key "length")
  let len := match g.1 with
             | .int n => n.toNat
             | _ => 0
  let r := args.foldl
    (fun (acc : ReactiveStore × Nat) v =>
      (acc.1.rootSet (.idx acc.2) v, acc.2 + 1)) (g.2, len)
  r.1.rootSet (.key "length") (.int (r.2 : Int))

/-- `ReactiveStore.setState` (lines 189-212): apply the updater (abstracted
to the field list of the object it returns), then for every key of the
result read the current value through the live root proxy, and when the
per-key deep-equal check fails write the new value through the live root
proxy and remember that something changed; after the loop a shared
notification fires if any key changed. -/
def ReactiveStore.setState (σ : ReactiveStore)
    (newFields : List (JProp × JVal)) : ReactiveStore :=
  let r := newFields.foldl
    (fun (acc : ReactiveStore × Bool) kv =>
      let g := acc.1.rootGet kv.1
      if g.2.heapDeepEqual g.1 kv.2 then (g.2, acc.2)
      else (g.2.rootSet kv.1 kv.2, true))
    (σ, false)
  if r.2 then r.1.notify else r.1

/-- `createReactiveState` (lines 23-83): wrap the initial state in the root
proxy; if the host `Proxy` constructor fails, catch, log a degradation
warning and fall back to the raw, non-reactive state. The Boolean reports
whether the root is a live proxy (`true`) or the raw fallback (`false`). -/
def ReactiveStore.createReactiveState (σ : ReactiveStore) :
    Bool × ReactiveStore :=
  match σ.lookupObj σ.rootAddr with
  | some o => if o.isExtensible then (true, σ) else (false, σ.warn)
  | none => (false, σ.warn)

/-- The proxy-cache keys are pairwise distinct: at most one live proxy per
original object. -/
def ReactiveStore.CacheOk (σ : ReactiveStore) : Prop :=
  (σ.proxyCache.map Prod.fst).Nodup

/-- Well-formedness of an engine state: the cache is one-to-one and the
address allocator is fresh for every registered proxy and heap cell. Every
state reachable from a freshly constructed store satisfies this. -/
def ReactiveStore.Wf (σ : ReactiveStore) : Prop :=
  σ.CacheOk ∧
  (∀ q ∈ σ.proxyTarget, q.1 < σ.nextAddr) ∧
  (∀ q ∈ σ.heap, q.1 < σ.nextAddr)

/-- Whether a base-store event is a listener invocation. -/
def Event.isCall : Event → Bool
  | .listenerCalled _ _ => true
  | _ => false

/-- The value a `setState` call attempts to commit: the updater's result
threaded through the `onBeforeUpdate` chain. -/
def StoreCore.committedValue (s : StoreCore) (u : Value → Value) : Value :=
  (StoreCore.applyBefore s.plugins (u s.state) s.state).1

/-- Reactive store holding `{count: 0}` with one subscribed listener,
used to evaluate the C1 notification count. -/
def storeC1 : ReactiveStore :=
  { heap := [(0, .obj [(.key "count", .int 0)] true)],
    proxyTarget := [], proxyCache := [], nextAddr := 1, rootAddr := 0,
    listeners := [0], log := [], fuel := 3 }

/-- Reactive store whose cache already maps original `5` to proxy `9`,
used to exercise the canonical-proxy return concretely. -/
def storeC2 : ReactiveStore :=
  { heap := [(5, .obj [] true)],
    proxyTarget := [(9, 5)], proxyCache := [(5, 9)], nextAddr := 10,
    rootAddr := 5, listeners := [], log := [], fuel := 2 }

/-- Reactive store whose root state is the array `[5]`, with one subscribed
listener. -/
def storeC3 : ReactiveStore :=
  { heap := [(0, .arr [.int 5] true)],
    proxyTarget := [], proxyCache := [], nextAddr := 1, rootAddr := 0,
    listeners := [0], log := [], fuel := 2 }

/-- Reactive store holding `{items: [5]}` whose nested array is already
wrapped (proxy `2` over original `1`), with one subscribed listener. -/
def storeC3n : ReactiveStore :=
  { heap := [(0, .obj [(.key "items", .ref 1)] true), (1, .arr [.int 5] true)],
    proxyTarget := [(2, 1)], proxyCache := [(1, 2)], nextAddr := 3,
    rootAddr := 0, listeners := [7], log := [], fuel := 3 }

/-- Reactive store whose root state is the empty array, with one subscribed
listener. -/
def storeC4 : ReactiveStore :=
  { heap := [(0, .arr [] true)],
    proxyTarget := [], proxyCache := [], nextAddr := 1, rootAddr := 0,
    listeners := [0], log := [], fuel := 2 }

/-- Reactive store holding `{items: [5]}` whose nested array is already
wrapped (proxy `2` over original `1`), with one subscribed listener. -/
def storeC4n : ReactiveStore :=
  { heap := [(0, .obj [(.key "items", .ref 1)] true), (1, .arr [.int 5] true)],
    proxyTarget := [(2, 1)], proxyCache := [(1, 2)], nextAddr := 3,
    rootAddr := 0, listeners := [4], log := [], fuel := 3 }

/-- Base store holding `{count: 0}` with one subscribed listener and no
plugins. -/
def storeC5 : StoreCore :=
  { state := .obj [(.key "count", .int 0)],
    listeners := [⟨0, false⟩], plugins := [] }

/-- Base store holding `{count: 0}` with one subscribed listener and no
plugins. -/
def storeC6 : StoreCore :=
  { state := .obj [(.key "count", .int 0)],
    listeners := [⟨0, false⟩], plugins := [] }

/-- Base store with two subscribed listeners, the first of which throws
when invoked. -/
def storeC7 : StoreCore :=
  { state := .obj [(.key "count", .int 0)],
    listeners := [⟨0, true⟩, ⟨1, false⟩], plugins := [] }

/-- Reactive store whose only object is non-extensible (the host `Proxy`
constructor fails on it), placed at the root. -/
def storeC8 : ReactiveStore :=
  { heap := [(0, .obj [] false)],
    proxyTarget := [], proxyCache := [], nextAddr := 1, rootAddr := 0,
    listeners := [], log := [], fuel := 1 }

/-- Extensible store whose middleware chain contains a pass-through stage
followed by a stage that never calls `next`. -/
def storeC9 : StoreFull :=
  { core := { state := .obj [(.key "count", .int 0)],
              listeners := [⟨0, false⟩], plugins := [] },
    middlewares := [Mw.rewrite id, Mw.suppress] }

/-- Base store holding `{count: 0}` with one subscribed listener and one
plugin that never replaces the candidate state. -/
def storeC10 : StoreCore :=
  { state := .obj [(.key "count", .int 0)],
    listeners := [⟨0, false⟩], plugins := [⟨0, fun _ _ => none⟩] }

theorem applyBefore_snd (ps : List Plugin) (n0 old : Value) :
    (StoreCore.applyBefore ps n0 old).2 =
      ps.map (fun p => Event.beforeUpdate p.pid) := by
  induction ps generalizing n0 with
  | nil => rfl
  | cons p rest ih => simp [StoreCore.applyBefore, ih]

theorem filterCall_mapBefore (ps : List Plugin) :
    (ps.map (fun p => Event.beforeUpdate p.pid)).filter Event.isCall = [] := by
  induction ps with
  | nil => rfl
  | cons p rest ih => simp [Event.isCall, ih]

theorem filterCall_mapAfter (ps : List Plugin) (n o : Value) :
    (ps.map (fun p => Event.afterUpdate p.pid n o)).filter Event.isCall = [] := by
  induction ps with
  | nil => rfl
  | cons p rest ih => simp [Event.isCall, ih]

theorem filterCall_notifyAll (ls : List Listener) (v : Value) :
    (StoreCore.notifyAll ls v).filter Event.isCall =
      ls.map (fun l => Event.listenerCalled l.lid v) := by
  induction ls with
  | nil => rfl
  | cons l rest ih =>
      cases hl : l.throws <;>
        simp [StoreCore.notifyAll, hl, Event.isCall, List.filter_append] <;>
        simpa [StoreCore.notifyAll] using ih

/-- C6: for every base store, a `setState` whose updater returns
null/undefined throws `invalidState` synchronously, and the mutation is
atomic: the returned store is the input store unchanged (state and
listeners), and no listener and no hook event is emitted. -/
theorem c6_null_updater_throws_atomically (s : StoreCore) (u : Value → Value)
    (h : (u s.state).isNullish = true) :
    StoreCore.setState s u = (s, [], some StoreError.invalidState) := by
  simp [StoreCore.setState, h]

/-- Witness for C6 at the concrete store `storeC6` and the updater that
returns null. -/
theorem c6_witness :
    ((fun _ => Value.vnull) storeC6.state).isNullish = true ∧
      StoreCore.setState storeC6 (fun _ => Value.vnull) =
        (storeC6, [], some StoreError.invalidState) :=
  ⟨rfl, c6_null_updater_throws_atomically storeC6 (fun _ => Value.vnull) rfl⟩

/-- C5: for every base store and updater (whose result is not
null/undefined), letting `n` be the committed candidate after the
`onBeforeUpdate` chain: the listeners fire (each exactly once, with `n`)
and the state is replaced by `n` exactly when the change test holds, and
the change test is `!deepEqual(n, old)` for non-null object-typed `n` and
strict (reference) inequality otherwise — in particular an updater
returning an equal-by-value but differently-allocated object triggers zero
listener calls, and for primitive states strict inequality decides the
commit. -/
theorem c5_commit_iff_deep_inequality (s : StoreCore) (u : Value → Value)
    (h0 : (u s.state).isNullish = false) :
    ((StoreCore.setState s u).2.1.filter Event.isCall =
       (if StoreCore.hasChangedB (s.committedValue u) s.state then
          s.listeners.map
            (fun l => Event.listenerCalled l.lid (s.committedValue u))
        else [])) ∧
    ((StoreCore.setState s u).1.state =
       (if StoreCore.hasChangedB (s.committedValue u) s.state then
          s.committedValue u
        else s.state)) ∧
    ((jsTypeofObject (s.committedValue u) && !(s.committedValue u).isNull)
        = true →
      StoreCore.hasChangedB (s.committedValue u) s.state =
        !(deepEqual (s.committedValue u) s.state)) ∧
    ((jsTypeofObject (s.committedValue u) && !(s.committedValue u).isNull)
        = false →
      StoreCore.hasChangedB (s.committedValue u) s.state =
        !(strictEqPrim (s.committedValue u) s.state)) := by
  refine ⟨?_, ?_, ?_, ?_⟩
  · cases hch : StoreCore.hasChangedB (s.committedValue u) s.state <;>
      simp [StoreCore.setState, h0, StoreCore.committedValue] at hch ⊢ <;>
      simp [hch, List.filter_append, filterCall_mapBefore, filterCall_mapAfter,
            filterCall_notifyAll, applyBefore_snd, Event.isCall]
  · cases hch : StoreCore.hasChangedB (s.committedValue u) s.state <;>
      simp [StoreCore.setState, h0, StoreCore.committedValue] at hch ⊢ <;>
      simp [hch]
  · intro hcond
    simp [StoreCore.hasChangedB, hcond]
  · intro hcond
    simp [StoreCore.hasChangedB, hcond]

/-- Witness for C5 at `storeC5` and an updater returning an equal-by-value
but freshly allocated `{count: 0}`: the change test fails, so the filter of
listener calls is empty and the state is unchanged. -/
theorem c5_witness :
    ((fun _ => Value.obj [(.key "count", .int 0)]) storeC5.state).isNullish
        = false ∧
    ((StoreCore.setState storeC5
        (fun _ => Value.obj [(.key "count", .int 0)])).2.1.filter Event.isCall =
      (if StoreCore.hasChangedB
            (storeC5.committedValue (fun _ => Value.obj [(.key "count", .int 0)]))
            storeC5.state then
         storeC5.listeners.map
           (fun l => Event.listenerCalled l.lid
             (storeC5.committedValue
               (fun _ => Value.obj [(.key "count", .int 0)])))
       else [])) :=
  ⟨rfl,
   (c5_commit_iff_deep_inequality storeC5
      (fun _ => Value.obj [(.key "count", .int 0)]) rfl).1⟩

/-- C7: for every base store (the listener list and its `throws` flags are
unconstrained, so this covers any listener throwing), when the change test
holds the commit stands — the new value is stored —, every subscribed
listener is invoked exactly once with the new state in registration order
(a throwing listener never prevents the remaining ones), and the call
returns without error. -/
theorem c7_listener_isolation (s : StoreCore) (u : Value → Value)
    (h0 : (u s.state).isNullish = false)
    (hc : StoreCore.hasChangedB (s.committedValue u) s.state = true) :
    (StoreCore.setState s u).1.state = s.committedValue u ∧
    (StoreCore.setState s u).2.1.filter Event.isCall =
      s.listeners.map
        (fun l => Event.listenerCalled l.lid (s.committedValue u)) ∧
    (StoreCore.setState s u).2.2 = none := by
  simp [StoreCore.committedValue] at hc
  simp [StoreCore.setState, h0, hc, StoreCore.committedValue,
        List.filter_append, filterCall_mapBefore, filterCall_mapAfter,
        filterCall_notifyAll, applyBefore_snd, Event.isCall]

/-- Witness for C7 at `storeC7` (two listeners, the first throwing) and an
updater that changes the state. -/
theorem c7_witness :
    ((fun _ => Value.obj [(.key "count", .int 1)]) storeC7.state).isNullish
        = false ∧
    StoreCore.hasChangedB
      (storeC7.committedValue (fun _ => Value.obj [(.key "count", .int 1)]))
      storeC7.state = true ∧
    (StoreCore.setState storeC7
        (fun _ => Value.obj [(.key "count", .int 1)])).2.1.filter Event.isCall =
      storeC7.listeners.map
        (fun l => Event.listenerCalled l.lid
          (storeC7.committedValue
            (fun _ => Value.obj [(.key "count", .int 1)]))) :=
  ⟨rfl, by decide,
   (c7_listener_isolation storeC7
      (fun _ => Value.obj [(.key "count", .int 1)]) rfl (by decide)).2.1⟩

/-- C10 (implicit frame effect of `destroy`): `destroy` only clears the
listener set and fires each hook's `onDestroy`; the stored state and the
plugin list are unchanged and the store is not disabled — a subsequent
`setState` whose (validated) updater passes the change test still commits,
returns without error or warning, and still fires every hook's
`onBeforeUpdate` and `onAfterUpdate`; only the listener notifications are
gone, the listener set being empty. -/
theorem c10_destroy_keeps_store_usable (s : StoreCore) (u : Value → Value)
    (h0 : (u s.state).isNullish = false)
    (hc : StoreCore.hasChangedB ((StoreCore.destroy s).1.committedValue u)
            s.state = true) :
    (StoreCore.destroy s).1.state = s.state ∧
    (StoreCore.destroy s).1.listeners = [] ∧
    (StoreCore.destroy s).1.plugins = s.plugins ∧
    (StoreCore.destroy s).2 = s.plugins.map (fun p => Event.destroyed p.pid) ∧
    (StoreCore.setState (StoreCore.destroy s).1 u).1.state =
      (StoreCore.destroy s).1.committedValue u ∧
    (StoreCore.setState (StoreCore.destroy s).1 u).2.2 = none ∧
    (StoreCore.setState (StoreCore.destroy s).1 u).2.1 =
      s.plugins.map (fun p => Event.beforeUpdate p.pid) ++
        s.plugins.map (fun p =>
          Event.afterUpdate p.pid ((StoreCore.destroy s).1.committedValue u)
            s.state) := by
  simp [StoreCore.destroy, StoreCore.committedValue] at hc ⊢
  simp [StoreCore.setState, h0, hc, StoreCore.notifyAll, applyBefore_snd]

/-- Witness for C10 at `storeC10` (one listener, one plugin) and an updater
that changes the state. -/
theorem c10_witness :
    ((fun _ => Value.obj [(.key "count", .int 1)]) storeC10.state).isNullish
        = false ∧
    StoreCore.hasChangedB
      ((StoreCore.destroy storeC10).1.committedValue
        (fun _ => Value.obj [(.key "count", .int 1)]))
      storeC10.state = true ∧
    (StoreCore.setState (StoreCore.destroy storeC10).1
        (fun _ => Value.obj [(.key "count", .int 1)])).1.state =
      (StoreCore.destroy storeC10).1.committedValue
        (fun _ => Value.obj [(.key "count", .int 1)]) :=
  ⟨rfl, by rfl,
   (c10_destroy_keeps_store_usable storeC10
      (fun _ => Value.obj [(.key "count", .int 1)]) rfl (by rfl)).2.2.2.2.1⟩

theorem foldr_interp_suppress (mws : List Mw) (base : NextFn)
    (u : Value → Value) (s : StoreCore) (h : Mw.suppress ∈ mws) :
    (mws.foldr (fun mw next => mw.interp next) base) u s = (s, [], none) := by
  induction mws generalizing u with
  | nil => cases h
  | cons mw rest ih =>
      cases mw with
      | suppress => rfl
      | rewrite f =>
          have hm : Mw.suppress ∈ rest := by
            cases h with
            | tail _ hm => exact hm
          simpa [Mw.interp] using ih (f u) hm

/-- C9: for every extensible store whose middleware chain contains a stage
that never calls its `next` continuation, `setState` returns normally with
the core store unchanged and no events — in particular zero listener
invocations; the update is suppressed entirely and silently. -/
theorem c9_suppressing_middleware_cancels (fs : StoreFull) (u : Value → Value)
    (h : Mw.suppress ∈ fs.middlewares) :
    StoreFull.setState fs u = (fs.core, [], none) := by
  have hne : fs.middlewares.isEmpty = false := by
    cases hm : fs.middlewares with
    | nil => rw [hm] at h; cases h
    | cons _ _ => rfl
  simp only [StoreFull.setState, hne, Bool.false_eq_true, if_false]
  exact foldr_interp_suppress fs.middlewares _ u fs.core h

/-- Witness for C9 at `storeC9`, whose chain is a pass-through stage
followed by a suppressing stage. -/
theorem c9_witness :
    Mw.suppress ∈ storeC9.middlewares ∧
      StoreFull.setState storeC9 (fun _ => Value.int 1) =
        (storeC9.core, [], none) :=
  ⟨List.Mem.tail _ (List.Mem.head _),
   c9_suppressing_middleware_cancels storeC9 (fun _ => Value.int 1)
     (List.Mem.tail _ (List.Mem.head _))⟩

@[simp]
theorem writeObj_log (σ : ReactiveStore) (a : Addr) (o : HObj) :
    (σ.writeObj a o).log = σ.log := rfl

@[simp]
theorem writeObj_listeners (σ : ReactiveStore) (a : Addr) (o : HObj) :
    (σ.writeObj a o).listeners = σ.listeners := rfl

@[simp]
theorem writeObj_proxyTarget (σ : ReactiveStore) (a : Addr) (o : HObj) :
    (σ.writeObj a o).proxyTarget = σ.proxyTarget := rfl

@[simp]
theorem writeObj_nextAddr (σ : ReactiveStore) (a : Addr) (o : HObj) :
    (σ.writeObj a o).nextAddr = σ.nextAddr := rfl

@[simp]
theorem warn_listeners (σ : ReactiveStore) : σ.warn.listeners = σ.listeners := rfl

@[simp]
theorem warn_heap (σ : ReactiveStore) : σ.warn.heap = σ.heap := rfl

@[simp]
theorem warn_proxyTarget (σ : ReactiveStore) :
    σ.warn.proxyTarget = σ.proxyTarget := rfl

@[simp]
theorem warn_proxyCache (σ : ReactiveStore) :
    σ.warn.proxyCache = σ.proxyCache := rfl

@[simp]
theorem notify_heap (σ : ReactiveStore) : σ.notify.heap = σ.heap := rfl

@[simp]
theorem notify_listeners (σ : ReactiveStore) :
    σ.notify.listeners = σ.listeners := rfl

theorem listenerCallCount_append (a b : List REvent) :
    listenerCallCount (a ++ b) = listenerCallCount a + listenerCallCount b := by
  simp [listenerCallCount, List.filter_append]

theorem listenerCallCount_map_called (ls : List Nat) :
    listenerCallCount (ls.map REvent.listenerCalled) = ls.length := by
  induction ls with
  | nil => rfl
  | cons x rest ih => simpa [listenerCallCount, REvent.isCall] using ih

theorem listenerCallCount_notify (σ : ReactiveStore) :
    listenerCallCount σ.notify.log =
      listenerCallCount σ.log + σ.listeners.length := by
  simp [ReactiveStore.notify, listenerCallCount_append,
        listenerCallCount_map_called]

theorem listenerCallCount_warn (σ : ReactiveStore) :
    listenerCallCount σ.warn.log = listenerCallCount σ.log := by
  simp [ReactiveStore.warn, listenerCallCount_append, listenerCallCount,
        REvent.isCall]

theorem makeReactive_listeners (σ : ReactiveStore) (a : Addr) :
    (σ.makeReactive a).2.listeners = σ.listeners := by
  unfold ReactiveStore.makeReactive
  cases σ.cacheLookup a with
  | some p => rfl
  | none =>
      cases σ.lookupObj a with
      | none => rfl
      | some o => cases he : o.isExtensible <;> simp [he]

theorem makeReactive_lcc (σ : ReactiveStore) (a : Addr) :
    listenerCallCount (σ.makeReactive a).2.log = listenerCallCount σ.log := by
  unfold ReactiveStore.makeReactive
  cases σ.cacheLookup a with
  | some p => rfl
  | none =>
      cases σ.lookupObj a with
      | none => rfl
      | some o => cases he : o.isExtensible <;> simp [he, listenerCallCount_warn]

theorem makeReactive_heap (σ : ReactiveStore) (a : Addr) :
    (σ.makeReactive a).2.heap = σ.heap := by
  unfold ReactiveStore.makeReactive
  cases σ.cacheLookup a with
  | some p => rfl
  | none =>
      cases σ.lookupObj a with
      | none => rfl
      | some o => cases he : o.isExtensible <;> simp [he]

theorem wrapValue_listeners (σ : ReactiveStore) (v : JVal) :
    (σ.wrapValue v).2.listeners = σ.listeners := by
  unfold ReactiveStore.wrapValue
  cases v <;> simp
  case ref b => cases hr : σ.isReactiveJV (.ref b) <;>
    simp [hr, makeReactive_listeners]

theorem wrapValue_lcc (σ : ReactiveStore) (v : JVal) :
    listenerCallCount (σ.wrapValue v).2.log = listenerCallCount σ.log := by
  unfold ReactiveStore.wrapValue
  cases v <;> simp
  case ref b => cases hr : σ.isReactiveJV (.ref b) <;>
    simp [hr, makeReactive_lcc]

theorem find?_update_self (l : List (Addr × HObj)) (a : Addr) (x : HObj)
    (h : (l.find? (fun q => q.1 == a)).isSome = true) :
    (l.map (fun q => if q.1 == a then (a, x) else q)).find?
        (fun q => q.1 == a) = some (a, x) := by
  induction l with
  | nil => simp at h
  | cons q rest ih =>
      rw [List.map_cons]
      by_cases hq : (q.1 == a) = true
      · rw [if_pos hq]
        exact List.find?_cons_of_pos _ (by simp)
      · have hqf : (q.1 == a) = false := by simpa using hq
        rw [if_neg hq]
        simp only [List.find?, hqf] at h ⊢
        exact ih h

theorem lookupObj_writeObj_self (σ : ReactiveStore) (a : Addr) (o x : HObj)
    (h : σ.lookupObj a = some o) : (σ.writeObj a x).lookupObj a = some x := by
  have hs : (σ.heap.find? (fun q => q.1 == a)).isSome = true := by
    unfold ReactiveStore.lookupObj at h
    cases hf : σ.heap.find? (fun q => q.1 == a) with
    | none => rw [hf] at h; simp at h
    | some q => simp [hf]
  show (Option.map Prod.snd
      ((σ.heap.map fun q => if q.1 == a then (a, x) else q).find?
        (fun q => q.1 == a))) = some x
  rw [find?_update_self σ.heap a x hs]
  rfl

theorem find?_map_overwrite (fs : List (JProp × JVal)) (k : JProp) (v : JVal)
    (h : fs.any (fun q => q.1 == k) = true) :
    (fs.map (fun q => if q.1 == k then (k, v) else q)).find?
        (fun q => q.1 == k) = some (k, v) := by
  induction fs with
  | nil => simp at h
  | cons q rest ih =>
      rw [List.map_cons]
      by_cases hq : (q.1 == k) = true
      · rw [if_pos hq]
        exact List.find?_cons_of_pos _ (by simp)
      · have hqf : (q.1 == k) = false := by simpa using hq
        rw [if_neg hq]
        simp only [List.find?, hqf]
        simp only [List.any_cons, hqf, Bool.false_or] at h
        exact ih h

theorem find?_append_single (fs : List (JProp × JVal)) (k : JProp) (v : JVal)
    (h : fs.any (fun q => q.1 == k) = false) :
    (fs ++ [(k, v)]).find? (fun q => q.1 == k) = some (k, v) := by
  induction fs with
  | nil => simp [List.find?]
  | cons q rest ih =>
      simp only [List.any_cons, Bool.or_eq_false_iff] at h
      rw [List.cons_append]
      simp only [List.find?, h.1]
      exact ih h.2

theorem setAssoc_find? (fs : List (JProp × JVal)) (k : JProp) (v : JVal) :
    (setAssoc fs k v).find? (fun q => q.1 == k) = some (k, v) := by
  unfold setAssoc
  cases ha : fs.any (fun q => q.1 == k) with
  | true =>
      rw [if_pos rfl]
      exact find?_map_overwrite fs k v ha
  | false =>
      rw [if_neg (by simp)]
      exact find?_append_single fs k v ha

theorem listSetPad_getD (es : List JVal) (n : Nat) (v : JVal) :
    (listSetPad es n v)[n]?.getD JVal.vundefined = v := by
  unfold listSetPad
  by_cases h : n < es.length
  · rw [if_pos h]
    simp [List.getElem?_set_self', List.getElem?_eq_getElem h]
  · rw [if_neg h]
    have h1 : (es ++ List.replicate (n - es.length) JVal.vundefined).length ≤ n := by
      simp
      omega
    have h2 : (es ++ List.replicate (n - es.length) JVal.vundefined).length = n := by
      simp
      omega
    rw [List.getElem?_append_right h1, h2]
    simp

theorem rawGet_rawSet_of_ref (o : HObj) (prop : JProp) (b : Addr) (x : JVal)
    (h : o.rawGet prop = .ref b) : (o.rawSet prop x).rawGet prop = x := by
  cases o with
  | obj fs e => simp [HObj.rawGet, HObj.rawSet, setAssoc_find?]
  | arr es e =>
      cases prop with
      | idx n => simp [HObj.rawGet, HObj.rawSet, listSetPad_getD]
      | key s =>
          by_cases hs : (s == "length") = true <;> simp [HObj.rawGet, hs] at h

@[simp]
theorem cacheLookup_warn (σ : ReactiveStore) (a : Addr) :
    σ.warn.cacheLookup a = σ.cacheLookup a := rfl

@[simp]
theorem lookupObj_warn (σ : ReactiveStore) (a : Addr) :
    σ.warn.lookupObj a = σ.lookupObj a := rfl

theorem resolveTarget_writeObj (σ : ReactiveStore) (a : Addr) (o : HObj)
    (p : Addr) : (σ.writeObj a o).resolveTarget p = σ.resolveTarget p := rfl

theorem find?_fst_cons_self {β : Type} (a : Addr) (x : β)
    (l : List (Addr × β)) :
    ((a, x) :: l).find? (fun q => q.1 == a) = some (a, x) :=
  List.find?_cons_of_pos _ (by simp)

theorem lookupObj_makeReactive (σ : ReactiveStore) (b x : Addr) :
    (σ.makeReactive b).2.lookupObj x = σ.lookupObj x := by
  unfold ReactiveStore.lookupObj
  rw [makeReactive_heap]

theorem makeReactive_resolveTarget (σ : ReactiveStore) (b p : Addr)
    (hp : p < σ.nextAddr) :
    (σ.makeReactive b).2.resolveTarget p = σ.resolveTarget p := by
  unfold ReactiveStore.makeReactive
  cases hc : σ.cacheLookup b with
  | some q => rfl
  | none =>
      cases hl : σ.lookupObj b with
      | none => rfl
      | some o =>
          cases he : o.isExtensible with
          | false => simp [he, ReactiveStore.warn, ReactiveStore.resolveTarget]
          | true =>
              have hne : (σ.nextAddr == p) = false := by
                simp [Nat.ne_of_gt hp]
              simp [he, ReactiveStore.resolveTarget, List.find?, hne]

theorem makeReactive_of_cacheHit (σ : ReactiveStore) (a p : Addr)
    (h : σ.cacheLookup a = some p) : σ.makeReactive a = (p, σ) := by
  unfold ReactiveStore.makeReactive
  simp only [h]

theorem cacheLookup_none_not_mem (σ : ReactiveStore) (a : Addr)
    (hc : σ.cacheLookup a = none) : a ∉ σ.proxyCache.map Prod.fst := by
  intro hmem
  rcases List.mem_map.mp hmem with ⟨q, hq, hfst⟩
  unfold ReactiveStore.cacheLookup at hc
  have hfind : σ.proxyCache.find? (fun q => q.1 == a) = none :=
    Option.map_eq_none'.mp hc
  have := List.find?_eq_none.mp hfind q hq
  apply this
  simp [hfst]

/-- C2: the proxy cache keeps at most one live proxy per original object
and wrapping is idempotent. For every well-formed engine state and every
original `a`: re-running `makeReactive` right after a first run returns the
same (reference-equal) proxy; `makeReactive` preserves well-formedness (so
the one-proxy-per-original cache discipline is maintained across the
engine's lifetime); a cache hit returns the canonical existing proxy with
the engine completely unchanged, never a second proxy. Moreover, for reads:
whenever a property read through a proxy returns a wrapped (reactive)
value, an immediately repeated read of the same property returns the very
same proxy with no further engine change — two sequential reads yield
reference-equal proxies. -/
theorem c2_idempotent_wrap (σ : ReactiveStore) (hwf : σ.Wf) :
    (∀ a : Addr,
      ((σ.makeReactive a).2.makeReactive a).1 = (σ.makeReactive a).1 ∧
      ((σ.makeReactive a).2).Wf ∧
      (∀ p, σ.cacheLookup a = some p → σ.makeReactive a = (p, σ))) ∧
    (∀ (p : Addr) (prop : JProp) (v : JVal) (σ' : ReactiveStore),
      p < σ.nextAddr → σ.proxyGet p prop = (v, σ') →
      σ'.isReactiveJV v = true → σ'.proxyGet p prop = (v, σ')) := by
  constructor
  · intro a
    refine ⟨?_, ?_, ?_⟩
    · cases hc : σ.cacheLookup a with
      | some p => simp [ReactiveStore.makeReactive, hc]
      | none =>
          cases hl : σ.lookupObj a with
          | none => simp [ReactiveStore.makeReactive, hc, hl]
          | some o =>
              cases he : o.isExtensible with
              | false => simp [ReactiveStore.makeReactive, hc, hl, he]
              | true =>
                  have h1 : σ.makeReactive a =
                      (σ.nextAddr,
                       { σ with nextAddr := σ.nextAddr + 1,
                                proxyTarget := (σ.nextAddr, a) :: σ.proxyTarget,
                                proxyCache :=
                                  (a, σ.nextAddr) :: σ.proxyCache }) := by
                    unfold ReactiveStore.makeReactive
                    simp only [hc, hl, he, if_true]
                  rw [h1,
                      makeReactive_of_cacheHit _ a σ.nextAddr
                        (by simp [ReactiveStore.cacheLookup,
                                  find?_fst_cons_self])]
    case refine_3 =>
      intro p hp
      exact makeReactive_of_cacheHit σ a p hp
    · cases hc : σ.cacheLookup a with
      | some p => simpa [ReactiveStore.makeReactive, hc] using hwf
      | none =>
          cases hl : σ.lookupObj a with
          | none => simpa [ReactiveStore.makeReactive, hc, hl] using hwf
          | some o =>
              cases he : o.isExtensible with
              | false =>
                  simpa [ReactiveStore.makeReactive, hc, hl, he,
                         ReactiveStore.Wf, ReactiveStore.CacheOk,
                         ReactiveStore.warn] using hwf
              | true =>
                  obtain ⟨hcache, htar, hheap⟩ := hwf
                  simp only [ReactiveStore.makeReactive, hc, hl, he, if_true]
                  refine ⟨?_, ?_, ?_⟩
                  · exact List.Nodup.cons
                      (cacheLookup_none_not_mem σ a hc) hcache
                  · intro q hq
                    rcases List.mem_cons.mp hq with hq | hq
                    · subst hq; exact Nat.lt_succ_self _
                    · exact Nat.lt_succ_of_lt (htar q hq)
                  · intro q hq
                    exact Nat.lt_succ_of_lt (hheap q hq)
  · intro p prop v σ' hp hget hre
    unfold ReactiveStore.proxyGet at hget ⊢
    cases hl : σ.lookupObj (σ.resolveTarget p) with
    | none =>
        simp only [hl, Prod.mk.injEq] at hget
        obtain ⟨h1, h2⟩ := hget
        subst h1; subst h2
        simp [ReactiveStore.isReactiveJV] at hre
    | some o =>
        cases hv0 : o.rawGet prop with
        | ref b =>
            by_cases hr : σ.isReactiveJV (.ref b) = true
            · simp only [hl, hv0, hr, if_true, Prod.mk.injEq] at hget
              obtain ⟨h1, h2⟩ := hget
              subst h1; subst h2
              simp [hl, hv0, hr]
            · have hrf : σ.isReactiveJV (.ref b) = false := by simpa using hr
              simp only [hl, hv0, hrf, Bool.false_eq_true, if_false,
                         Prod.mk.injEq] at hget
              obtain ⟨h1, h2⟩ := hget
              subst h1; subst h2
              have hrt : ((σ.makeReactive b).2.writeObj (σ.resolveTarget p)
                  (o.rawSet prop (.ref (σ.makeReactive b).1))).resolveTarget p
                  = σ.resolveTarget p := by
                rw [resolveTarget_writeObj, makeReactive_resolveTarget σ b p hp]
              have hlo : ((σ.makeReactive b).2.writeObj (σ.resolveTarget p)
                  (o.rawSet prop (.ref (σ.makeReactive b).1))).lookupObj
                    (σ.resolveTarget p)
                  = some (o.rawSet prop (.ref (σ.makeReactive b).1)) := by
                apply lookupObj_writeObj_self
                rw [lookupObj_makeReactive]
                exact hl
              simp only [hrt, hlo, rawGet_rawSet_of_ref o prop b _ hv0,
                         hre, if_true]
        | vnull =>
            simp only [hl, hv0, Prod.mk.injEq] at hget
            obtain ⟨h1, h2⟩ := hget
            subst h1; subst h2
            simp [ReactiveStore.isReactiveJV] at hre
        | vundefined =>
            simp only [hl, hv0, Prod.mk.injEq] at hget
            obtain ⟨h1, h2⟩ := hget
            subst h1; subst h2
            simp [ReactiveStore.isReactiveJV] at hre
        | int n =>
            simp only [hl, hv0, Prod.mk.injEq] at hget
            obtain ⟨h1, h2⟩ := hget
            subst h1; subst h2
            simp [ReactiveStore.isReactiveJV] at hre
        | str s =>
            simp only [hl, hv0, Prod.mk.injEq] at hget
            obtain ⟨h1, h2⟩ := hget
            subst h1; subst h2
            simp [ReactiveStore.isReactiveJV] at hre
        | bool x =>
            simp only [hl, hv0, Prod.mk.injEq] at hget
            obtain ⟨h1, h2⟩ := hget
            subst h1; subst h2
            simp [ReactiveStore.isReactiveJV] at hre

/-- Witness for C2 at `storeC2`, whose cache already maps original `5` to
proxy `9`: the store is well-formed and wrapping returns the canonical
proxy `9` with the engine completely unchanged. -/
theorem c2_witness :
    storeC2.Wf ∧ storeC2.makeReactive 5 = (9, storeC2) :=
  ⟨⟨by unfold ReactiveStore.CacheOk; decide, by decide, by decide⟩,
   ((c2_idempotent_wrap storeC2
       ⟨by unfold ReactiveStore.CacheOk; decide, by decide, by decide⟩).1
      5).2.2 9 (by rfl)⟩

@[simp]
theorem lookupObj_notify (σ : ReactiveStore) (y : Addr) :
    σ.notify.lookupObj y = σ.lookupObj y := rfl

/-- C3 counterexample: the claim asserts that numeric-index assignment
through the reactive view always notifies, for every array including the
root state itself. At the root it is false: `storeC3` has root state `[5]`
and one subscribed listener, yet assigning index `0` the deep-equal value
`5` through the root proxy's set trap (which has no numeric-index special
case) produces zero listener invocations. -/
theorem c3_counterexample_root_array_index_no_notify :
    storeC3.listeners.length = 1 ∧
      listenerCallCount (storeC3.rootSet (.idx 0) (.int 5)).log = 0 :=
  ⟨rfl, rfl⟩

/-- C3 (amended): on every array wrapped by `makeReactive` — every nested
array reached through the reactive view — numeric-index assignment through
the proxy's set trap always fires the shared notification (each subscribed
listener invoked exactly once more), even when the assigned value is
deep-equal to the previous one; the root proxy itself has no such rule and
deduplicates by deep equality. -/
theorem c3_amended_nested_index_always_notifies (σ : ReactiveStore) (p : Addr)
    (n : Nat) (v : JVal) (es : List JVal) (e : Bool)
    (h : σ.lookupObj (σ.resolveTarget p) = some (.arr es e)) :
    listenerCallCount (σ.proxySet p (.idx n) v).log =
      listenerCallCount σ.log + σ.listeners.length := by
  unfold ReactiveStore.proxySet
  simp only [h, HObj.isArr, isNumericIndex, Bool.true_or, if_true]
  rw [listenerCallCount_notify]
  simp [wrapValue_lcc, wrapValue_listeners]

/-- Witness for C3's amended theorem at `storeC3n`: assigning the deep-equal
value `5` at index `0` of the wrapped nested array still notifies the one
subscribed listener. -/
theorem c3_witness :
    storeC3n.lookupObj (storeC3n.resolveTarget 2) = some (.arr [.int 5] true) ∧
      listenerCallCount (storeC3n.proxySet 2 (.idx 0) (.int 5)).log =
        listenerCallCount storeC3n.log + storeC3n.listeners.length :=
  ⟨by rfl,
   c3_amended_nested_index_always_notifies storeC3n 2 0 (.int 5) [.int 5] true
     (by rfl)⟩

/-- C4 counterexample: the claim asserts that every mutating sequence
operation on every array reachable through the reactive view notifies
exactly once. At the root it is false: `storeC4` has root state `[]` and
one subscribed listener, and `push(1, 2)` invoked on the root proxy (whose
get trap does not intercept array methods) runs the host push algorithm
through the root set trap, notifying once per element — two listener
invocations, not one. -/
theorem c4_counterexample_root_push_notifies_per_element :
    storeC4.listeners.length = 1 ∧
      listenerCallCount (storeC4.rootArrayPush [.int 1, .int 2]).log = 2 :=
  ⟨rfl, rfl⟩

/-- C4 (amended): on every array wrapped by `makeReactive` — every nested
array reached through the reactive view — each of the seven intercepted
mutating methods executes on the underlying raw array and then fires the
shared notification exactly once (each subscribed listener invoked exactly
once more, never once per internal element write); the root-level proxy
does not intercept methods and lacks this guarantee. -/
theorem c4_amended_nested_methods_notify_once (σ : ReactiveStore) (p : Addr)
    (m : ArrMethod) (es : List JVal) (e : Bool)
    (h : σ.lookupObj (σ.resolveTarget p) = some (.arr es e)) :
    listenerCallCount (σ.callArrayMethod p m).log =
      listenerCallCount σ.log + σ.listeners.length ∧
    (σ.callArrayMethod p m).lookupObj (σ.resolveTarget p) =
      some (.arr (m.rawApply es) e) := by
  unfold ReactiveStore.callArrayMethod
  simp only [h]
  constructor
  · rw [listenerCallCount_notify]
    simp
  · rw [lookupObj_notify]
    exact lookupObj_writeObj_self σ _ _ _ h

/-- Witness for C4's amended theorem at `storeC4n`: pushing `7` onto the
wrapped nested array notifies the one subscribed listener exactly once and
appends the element on the raw target. -/
theorem c4_witness :
    storeC4n.lookupObj (storeC4n.resolveTarget 2) = some (.arr [.int 5] true) ∧
      listenerCallCount (storeC4n.callArrayMethod 2 (.push [.int 7])).log =
        listenerCallCount storeC4n.log + storeC4n.listeners.length :=
  ⟨by rfl,
   (c4_amended_nested_methods_notify_once storeC4n 2 (.push [.int 7])
      [.int 5] true (by rfl)).1⟩

/-- C8: for every object on which interception-proxy creation fails
(abstracted by the `extensible` flag), the engine returns the unwrapped
original for that subtree, logs exactly one degradation warning and changes
nothing else; the failure is never propagated as an exception (both
`makeReactive` and `createReactiveState` are total and return normally) —
neither on nested on-demand wrapping nor at store construction for the
root, where the raw state is returned as the non-reactive fallback. -/
theorem c8_proxy_failure_degrades :
    (∀ (σ : ReactiveStore) (a : Addr) (o : HObj),
        σ.cacheLookup a = none → σ.lookupObj a = some o →
        o.isExtensible = false → σ.makeReactive a = (a, σ.warn)) ∧
    (∀ (σ : ReactiveStore) (o : HObj),
        σ.lookupObj σ.rootAddr = some o → o.isExtensible = false →
        σ.createReactiveState = (false, σ.warn)) := by
  constructor
  · intro σ a o hc hl he
    unfold ReactiveStore.makeReactive
    simp only [hc, hl, he, Bool.false_eq_true, if_false]
  · intro σ o hl he
    unfold ReactiveStore.createReactiveState
    simp only [hl, he, Bool.false_eq_true, if_false]

/-- Witness for C8 at `storeC8`, whose root object is non-extensible: both
the nested wrap and the root construction return the unwrapped original
with one logged warning. -/
theorem c8_witness :
    storeC8.cacheLookup 0 = none ∧
    storeC8.lookupObj 0 = some (.obj [] false) ∧
    storeC8.makeReactive 0 = (0, storeC8.warn) ∧
    storeC8.createReactiveState = (false, storeC8.warn) :=
  ⟨rfl, rfl,
   c8_proxy_failure_degrades.1 storeC8 0 (.obj [] false) rfl rfl rfl,
   c8_proxy_failure_degrades.2 storeC8 (.obj [] false) rfl rfl⟩

/-- C1 evaluation at the failing input: `storeC1` holds reactive state
`{count: 0}` with exactly one subscribed listener; the single `setState`
whose result changes exactly the one top-level key `count` (to `1`) invokes
that listener twice — once from the root proxy's set trap during the
per-key write through the live wrapped state, and once from the final
shared notification — not exactly once as the claim states. -/
theorem c1_single_key_setState_notifies_twice :
    storeC1.listeners.length = 1 ∧
      listenerCallCount (storeC1.setState [(.key "count", .int 1)]).log = 2 :=
  ⟨rfl, rfl⟩
